import Mathlib

/-!
Shallow embedding of the donor-record server of the blood_donation_system
repository (src/unnamed/part_001, the extended variant with fatherName and
cnicNumber, together with the Mongoose schema src/server/models/Donor.ts).

JavaScript strings that are only compared for equality or emptiness are
modelled as Lean String; the city string, which the code rewrites character
by character, is modelled as a list of UTF-16 code units (List Nat); the
case mappings of toLowerCase and toUpperCase carry the full Unicode
mappings on the ASCII range and on the Latin sharp s code points (where the
full mapping is one-to-many), and keep all other code units fixed, an
under-approximation of the rest of the Unicode table. Dates are modelled as
calendar dates (year, zero-based month, day) with the rollover semantics of
Date.prototype.setMonth. The Mongo store is a sequential association list
from ids to records; each request handler is a function from the store and
the request to a response and the new store.
-/

/-- A calendar date as JavaScript Date exposes it: getMonth is zero-based. -/
structure JsDate where
  year : Int
  month : Nat
  day : Nat
deriving DecidableEq, Repr

def isLeapYear (y : Int) : Bool :=
  (y % 4 == 0 && y % 100 != 0) || (y % 400 == 0)

/-- Days in the zero-based month m of year y. -/
def daysInMonth (y : Int) (m : Nat) : Nat :=
  if m = 1 then (if isLeapYear y then 29 else 28)
  else if m = 3 ∨ m = 5 ∨ m = 8 ∨ m = 10 then 30
  else 31

/-- Model of d.setMonth(d.getMonth() + k): the month is advanced with the
day of month kept, and a day beyond the end of the target month rolls over
into the following month (no clamping). One carry step suffices for any
well-formed calendar date, whose day is at most 31. -/
def jsAddMonths (d : JsDate) (k : Nat) : JsDate :=
  let t := d.month + k
  let y : Int := d.year + Int.ofNat (t / 12)
  let m := t % 12
  if d.day ≤ daysInMonth y m then ⟨y, m, d.day⟩
  else if m = 11 then ⟨y + 1, 0, d.day - daysInMonth y m⟩
  else ⟨y, m + 1, d.day - daysInMonth y m⟩

/-- Model of lastDonationDate > today on Date time values, for dates with
the time of day zeroed: lexicographic comparison of (year, month, day). -/
def dateAfter (a b : JsDate) : Bool :=
  if a.year = b.year then
    (if a.month = b.month then decide (b.day < a.day) else decide (b.month < a.month))
  else decide (b.year < a.year)

/-! City strings as UTF-16 code units. -/

/-- The restriction of the toLowerCase case mapping to the ASCII range,
where it is unit-to-unit (A-Z to a-z); used to reason about ASCII inputs. -/
def jsToLowerCode (c : Nat) : Nat :=
  if 65 ≤ c ∧ c ≤ 90 then c + 32 else c

/-- The restriction of the toUpperCase case mapping to the ASCII range,
where it is unit-to-unit (a-z to A-Z); used to reason about ASCII inputs. -/
def jsToUpperCode (c : Nat) : Nat :=
  if 97 ≤ c ∧ c ≤ 122 then c - 32 else c

/-- Code-unit mapping of String.prototype.toLowerCase: exact on the ASCII
range and on the sharp s code points (capital sharp s U+1E9E lowers to
U+00DF); every other code unit is kept fixed, an under-approximation of the
remaining Unicode case mappings. -/
def jsLowerChar (c : Nat) : List Nat :=
  if 65 ≤ c ∧ c ≤ 90 then [c + 32]
  else if c = 7838 then [223]
  else [c]

/-- Code-unit mapping of String.prototype.toUpperCase with the full Unicode
case mappings: exact on the ASCII range and on the sharp s (U+00DF
uppercases to the two units SS, a one-to-many full mapping); every other
code unit is kept fixed, an under-approximation of the remaining table. -/
def jsUpperChar (c : Nat) : List Nat :=
  if 97 ≤ c ∧ c ≤ 122 then [c - 32]
  else if c = 223 then [83, 83]
  else [c]

/-- Model of s.toLowerCase() on code units. -/
def jsToLowerStr (s : List Nat) : List Nat := (s.map jsLowerChar).flatten

/-- Model of s.split(' '): split on each single space (code 32); adjacent
separators and boundary separators yield empty words, as in JavaScript. -/
def splitOnSpace : List Nat → List (List Nat)
  | [] => [[]]
  | c :: rest =>
    if c = 32 then [] :: splitOnSpace rest
    else
      match splitOnSpace rest with
      | [] => [[c]]
      | w :: ws => (c :: w) :: ws

/-- Model of arr.join(' '). -/
def joinSpace : List (List Nat) → List Nat
  | [] => []
  | [w] => w
  | w :: ws => w ++ 32 :: joinSpace ws

/-- Model of word.charAt(0).toUpperCase() + word.slice(1): charAt(0) of the
empty string is the empty string, so the empty word is unchanged; charAt
takes the first UTF-16 unit, whose uppercase image may be two units. -/
def capWord : List Nat → List Nat
  | [] => []
  | c :: rest => jsUpperChar c ++ rest

/-- The city normalization of the POST handler:
city.toLowerCase().split(' ').map(w to capitalized w).join(' '). -/
def normalizeCity (s : List Nat) : List Nat :=
  joinSpace ((splitOnSpace (jsToLowerStr s)).map capWord)

/-- The same pipeline restricted to the ASCII unit-to-unit case maps; it
agrees with normalizeCity on all-ASCII strings. -/
def asciiCapWord : List Nat → List Nat
  | [] => []
  | c :: rest => jsToUpperCode c :: rest

def asciiNormalize (s : List Nat) : List Nat :=
  joinSpace ((splitOnSpace (s.map jsToLowerCode)).map asciiCapWord)

/-- Every code unit of the string lies in the ASCII range. -/
def allAscii (s : List Nat) : Bool := s.all (fun c => c < 128)

/-- Convenience: a Lean string literal as UTF-16 code units (ASCII range). -/
def codesOf (s : String) : List Nat := s.toList.map Char.toNat

/-! The data model. -/

/-- A parsed JSON request body. A field absent from the JSON is none; the
required-field check of the handler treats none and the empty string alike,
as the JavaScript falsy test does. -/
structure RequestBody where
  name : Option String
  fatherName : Option String
  contactNumber : Option String
  cnicNumber : Option String
  address : Option String
  city : Option (List Nat)
  bloodGroup : Option String
  department : Option String
  semester : Option String
  lastDonation : Option JsDate
  nextAvailableDate : Option JsDate
deriving DecidableEq, Repr

/-- A stored donor document (donorSchema of src/server/models/Donor.ts). -/
structure StoredDonor where
  name : String
  fatherName : String
  contactNumber : String
  cnicNumber : String
  address : String
  city : List Nat
  bloodGroup : String
  department : String
  semester : String
  lastDonation : Option JsDate
  nextAvailableDate : Option JsDate
deriving DecidableEq, Repr

/-- The donor collection: ids paired with documents, newest first. -/
abbrev Store := List (Nat × StoredDonor)

/-- The parts of a JSON response the claims talk about. donors carries the
document of res.json(donor) or the list of res.json(donors). -/
structure Response where
  status : Nat
  message : String
  missingFields : List String
  validationErrors : List (String × String)
  donors : List StoredDonor
deriving DecidableEq, Repr

def findDonor (st : Store) (id : Nat) : Option StoredDonor :=
  (st.find? (fun p => p.1 == id)).map (fun p => p.2)

/-! The POST /api/donors handler (src/unnamed/part_001 lines 98 to 202). -/

def requiredFields : List String :=
  ["name", "fatherName", "contactNumber", "cnicNumber", "address", "city",
   "bloodGroup", "department", "semester"]

/-- The JavaScript falsy test on a string body field: absent or empty. -/
def strFalsy : Option String → Bool
  | none => true
  | some s => s == ""

/-- The JavaScript falsy test on the city field. -/
def cityFalsy : Option (List Nat) → Bool
  | none => true
  | some l => l.isEmpty

/-- The truthiness test req.body[field] performed by the filter over
requiredFields, dispatched on the field name. -/
def fieldFalsy (b : RequestBody) (f : String) : Bool :=
  if f == "name" then strFalsy b.name
  else if f == "fatherName" then strFalsy b.fatherName
  else if f == "contactNumber" then strFalsy b.contactNumber
  else if f == "cnicNumber" then strFalsy b.cnicNumber
  else if f == "address" then strFalsy b.address
  else if f == "city" then cityFalsy b.city
  else if f == "bloodGroup" then strFalsy b.bloodGroup
  else if f == "department" then strFalsy b.department
  else if f == "semester" then strFalsy b.semester
  else false

/-- requiredFields.filter(field not truthy in req.body). -/
def missingFieldsOf (b : RequestBody) : List String :=
  requiredFields.filter (fieldFalsy b)

/-- The lastDonation future check: runs only when lastDonation is truthy. -/
def futureDonation (today : JsDate) (b : RequestBody) : Bool :=
  match b.lastDonation with
  | some l => dateAfter l today
  | none => false

/-- The in-place rewrite of req.body.city when city is truthy. -/
def normalizeCityOpt (b : RequestBody) : RequestBody :=
  match b.city with
  | some c => if c.isEmpty then b else { b with city := some (normalizeCity c) }
  | none => b

def validBloodGroups : List String :=
  ["A+", "A-", "B+", "B-", "AB+", "AB-", "O+", "O-"]

/-- validBloodGroups.includes(req.body.bloodGroup); an absent field is
undefined and not a member. -/
def bloodGroupValid (b : RequestBody) : Bool :=
  match b.bloodGroup with
  | some g => validBloodGroups.contains g
  | none => false

/-- Donor.findOne on contactNumber returns a document. -/
def contactTaken (st : Store) (b : RequestBody) : Bool :=
  st.any (fun p => p.2.contactNumber == b.contactNumber.getD "")

/-- Donor.findOne on cnicNumber returns a document. -/
def cnicTaken (st : Store) (b : RequestBody) : Bool :=
  st.any (fun p => p.2.cnicNumber == b.cnicNumber.getD "")

/-- donorData: the body spread, with lastDonation parsed and
nextAvailableDate overwritten by lastDonation advanced three months, or
null when lastDonation is falsy. -/
def buildDonorData (b : RequestBody) : StoredDonor :=
  ⟨b.name.getD "", b.fatherName.getD "", b.contactNumber.getD "",
   b.cnicNumber.getD "", b.address.getD "", b.city.getD [],
   b.bloodGroup.getD "", b.department.getD "", b.semester.getD "",
   b.lastDonation, b.lastDonation.map (fun l => jsAddMonths l 3)⟩

/-- The pre save hook of donorSchema: when lastDonation is set, recompute
nextAvailableDate as lastDonation advanced three months. Runs on
donor.save(), not on findByIdAndUpdate. -/
def preSave (d : StoredDonor) : StoredDonor :=
  match d.lastDonation with
  | some l => { d with nextAvailableDate := some (jsAddMonths l 3) }
  | none => d

def authRequiredResponse : Response := ⟨401, "Authentication required", [], [], []⟩

def notFoundResponse : Response := ⟨404, "Donor not found", [], [], []⟩

/-- The POST /api/donors handler. today is the server clock truncated to
the start of the day; freshId is the id the store assigns on insertion. -/
def postDonor (today : JsDate) (freshId : Nat) (st : Store) (b0 : RequestBody) :
    Response × Store :=
  let miss := missingFieldsOf b0
  if miss.length > 0 then
    (⟨400, "Missing required fields", miss,
      miss.map (fun f => (f, f ++ " is required")), []⟩, st)
  else if futureDonation today b0 then
    (⟨400, "Invalid last donation date", [],
      [("lastDonation", "Last donation date cannot be in the future")], []⟩, st)
  else
    let b := normalizeCityOpt b0
    if ¬ bloodGroupValid b then
      (⟨400, "Invalid blood group", [],
        [("bloodGroup",
          "Blood group must be one of: A+, A-, B+, B-, AB+, AB-, O+, O-")], []⟩, st)
    else if contactTaken st b then
      (⟨400, "Contact number already registered", [],
        [("contactNumber", "This contact number is already registered")], []⟩, st)
    else if cnicTaken st b then
      (⟨400, "CNIC number already registered", [],
        [("cnicNumber", "This CNIC number is already registered")], []⟩, st)
    else
      let donor := preSave (buildDonorData b)
      (⟨201, "", [], [], [donor]⟩, (freshId, donor) :: st)

/-! The PUT /api/donors/:id handler (src/unnamed/part_001 lines 213 to 241). -/

/-- The nextAvailableDate field of updateData: overwritten with the derived
date when updateData.lastDonation is truthy, else whatever the client sent. -/
def updateNextField (b : RequestBody) : Option JsDate :=
  match b.lastDonation with
  | some l => some (jsAddMonths l 3)
  | none => b.nextAvailableDate

/-- findByIdAndUpdate document rewrite: each field present in updateData is
set, absent fields keep their stored value. The pre save hook does not run. -/
def applyUpdate (b : RequestBody) (d : StoredDonor) : StoredDonor :=
  ⟨b.name.getD d.name, b.fatherName.getD d.fatherName,
   b.contactNumber.getD d.contactNumber, b.cnicNumber.getD d.cnicNumber,
   b.address.getD d.address, b.city.getD d.city,
   b.bloodGroup.getD d.bloodGroup, b.department.getD d.department,
   b.semester.getD d.semester,
   (match b.lastDonation with | some l => some l | none => d.lastDonation),
   (match updateNextField b with | some n => some n | none => d.nextAvailableDate)⟩

/-- The PUT /api/donors/:id handler. -/
def putDonor (st : Store) (id : Nat) (b : RequestBody) : Response × Store :=
  match findDonor st id with
  | none => (notFoundResponse, st)
  | some d =>
    let d2 := applyUpdate b d
    (⟨200, "", [], [], [d2]⟩, st.map (fun p => if p.1 == id then (p.1, d2) else p))

/-- The DELETE /api/donors/:id handler: findByIdAndDelete then 204 with an
empty body, whether or not the id was present. -/
def deleteDonor (st : Store) (id : Nat) : Response × Store :=
  (⟨204, "", [], [], []⟩, st.filter (fun p => !(p.1 == id)))

/-- The GET /api/donors handler. -/
def listDonors (st : Store) : Response × Store :=
  (⟨200, "", [], [], st.map (fun p => p.2)⟩, st)

/-- The GET /api/donors/:id handler. -/
def getDonor (st : Store) (id : Nat) : Response × Store :=
  match findDonor st id with
  | none => (notFoundResponse, st)
  | some d => (⟨200, "", [], [], [d]⟩, st)

/-! Route registration and the authentication middleware
(src/unnamed/part_001 lines 47 to 62 and the app.get/post/put/delete calls). -/

inductive ApiRequest where
  | list
  | getOne (id : Nat)
  | create (body : RequestBody)
  | remove (id : Nat)
  | update (id : Nat) (body : RequestBody)
deriving DecidableEq, Repr

/-- Whether the route registration passes the authenticateToken middleware:
GET, POST and DELETE do; the PUT registration omits it. -/
def routeRequiresAuth : ApiRequest → Bool
  | .update _ _ => false
  | _ => true

def runHandler (today : JsDate) (freshId : Nat) (st : Store) :
    ApiRequest → Response × Store
  | .list => listDonors st
  | .getOne id => getDonor st id
  | .create b => postDonor today freshId st b
  | .remove id => deleteDonor st id
  | .update id b => putDonor st id b

/-- One request through the middleware chain: on an authenticated route a
missing bearer token answers 401 before the handler, an invalid one 403;
routes registered without the middleware go straight to the handler.
verify abstracts jwt.verify on the present token. -/
def dispatch (verify : String → Bool) (today : JsDate) (freshId : Nat)
    (st : Store) (token : Option String) (r : ApiRequest) : Response × Store :=
  if routeRequiresAuth r then
    match token with
    | none => (authRequiredResponse, st)
    | some t =>
      if verify t then runHandler today freshId st r
      else (⟨403, "Invalid token", [], [], []⟩, st)
  else runHandler today freshId st r

/-- The derived-field invariant of the spec: nextAvailableDate is exactly
lastDonation advanced three calendar months when lastDonation is present,
and absent otherwise. -/
def derivedInvariant (d : StoredDonor) : Prop :=
  d.nextAvailableDate = d.lastDonation.map (fun l => jsAddMonths l 3)

instance (d : StoredDonor) : Decidable (derivedInvariant d) := by
  unfold derivedInvariant; infer_instance

/-- No two stored documents share a contactNumber. -/
def contactUnique (st : Store) : Prop :=
  st.Pairwise (fun p q => p.2.contactNumber ≠ q.2.contactNumber)

instance (st : Store) : Decidable (contactUnique st) := by
  unfold contactUnique; infer_instance

/-! Concrete values used by counterexamples and witnesses. -/

def today0 : JsDate := ⟨2025, 9, 11⟩

def ld0 : JsDate := ⟨2025, 0, 15⟩

def futureDate0 : JsDate := ⟨2026, 0, 15⟩

def nextDate0 : JsDate := ⟨2024, 0, 15⟩

def emptyBody : RequestBody :=
  ⟨none, none, none, none, none, none, none, none, none, none, none⟩

def validBody : RequestBody :=
  ⟨some "Ali", some "Ahmed", some "0300-1111111", some "11111-1111111-1",
   some "Street 1", some (codesOf "karachi"), some "AB+", some "CS", some "5",
   some ld0, none⟩

def blankDonor : StoredDonor :=
  ⟨"Ali", "Ahmed", "0300-1111111", "11111-1111111-1", "Street 1",
   codesOf "Karachi", "A+", "CS", "5", none, none⟩

def donorB : StoredDonor :=
  { blankDonor with contactNumber := "0300-2222222", cnicNumber := "22222-2222222-2" }

def nextOnlyBody : RequestBody := { emptyBody with nextAvailableDate := some nextDate0 }

def lastOnlyBody : RequestBody := { emptyBody with lastDonation := some ld0 }

def contactDupBody : RequestBody := { emptyBody with contactNumber := some "0300-1111111" }

def missAndFutureBody : RequestBody :=
  { validBody with name := none, lastDonation := some futureDate0 }

def storeTwo : Store := [(0, blankDonor), (1, donorB)]
def futureBody : RequestBody := { validBody with lastDonation := some futureDate0 }

def missTwoBody : RequestBody := { validBody with name := none, address := some "" }

def xBody : RequestBody := { validBody with bloodGroup := some "X+" }

theorem jsToLowerCode_idem (c : Nat) : jsToLowerCode (jsToLowerCode c) = jsToLowerCode c := by
  unfold jsToLowerCode; split_ifs <;> omega

theorem jsToLowerCode_jsToUpperCode (c : Nat) (h : jsToLowerCode c = c) :
    jsToLowerCode (jsToUpperCode c) = c := by
  simp only [jsToLowerCode, jsToUpperCode] at h ⊢; split_ifs at h ⊢ <;> omega

theorem jsToLowerCode_space : jsToLowerCode 32 = 32 := by decide

theorem splitOnSpace_ne_nil : ∀ s : List Nat, splitOnSpace s ≠ []
  | [] => by simp [splitOnSpace]
  | c :: rest => by
    unfold splitOnSpace
    by_cases hc : c = 32
    · simp [hc]
    · simp only [hc, if_false]
      cases h : splitOnSpace rest <;> simp

theorem not_space_of_mem_splitOnSpace :
    ∀ s w, w ∈ splitOnSpace s → 32 ∉ w
  | [], w, hw => by
    simp [splitOnSpace] at hw; simp [hw]
  | c :: rest, w, hw => by
    unfold splitOnSpace at hw
    by_cases hc : c = 32
    · simp only [hc, if_pos rfl] at hw
      rcases List.mem_cons.1 hw with h | h
      · simp [h]
      · exact not_space_of_mem_splitOnSpace rest w h
    · simp only [hc, if_false] at hw
      cases h : splitOnSpace rest with
      | nil => simp [h] at hw; simp [hw]; omega
      | cons v ws =>
        rw [h] at hw
        rcases List.mem_cons.1 hw with h2 | h2
        · subst h2
          intro hmem
          rcases List.mem_cons.1 hmem with h3 | h3
          · exact hc h3.symm
          · exact not_space_of_mem_splitOnSpace rest v (by rw [h]; exact List.mem_cons_self v ws) h3
        · exact not_space_of_mem_splitOnSpace rest w (by rw [h]; exact List.mem_cons_of_mem v h2)

theorem mem_of_mem_splitOnSpace :
    ∀ s w c, w ∈ splitOnSpace s → c ∈ w → c ∈ s
  | [], w, c, hw, hc => by
    simp [splitOnSpace] at hw; subst hw; simp at hc
  | a :: rest, w, c, hw, hc => by
    unfold splitOnSpace at hw
    by_cases ha : a = 32
    · simp only [ha, if_pos rfl] at hw
      rcases List.mem_cons.1 hw with h | h
      · subst h; simp at hc
      · exact List.mem_cons_of_mem a (mem_of_mem_splitOnSpace rest w c h hc)
    · simp only [ha, if_false] at hw
      cases h : splitOnSpace rest with
      | nil => exact absurd h (splitOnSpace_ne_nil rest)
      | cons v ws =>
        rw [h] at hw
        rcases List.mem_cons.1 hw with h2 | h2
        · subst h2
          rcases List.mem_cons.1 hc with h3 | h3
          · exact h3 ▸ List.mem_cons_self a rest
          · exact List.mem_cons_of_mem a
              (mem_of_mem_splitOnSpace rest v c (by rw [h]; exact List.mem_cons_self v ws) h3)
        · exact List.mem_cons_of_mem a
            (mem_of_mem_splitOnSpace rest w c (by rw [h]; exact List.mem_cons_of_mem v h2) hc)

theorem splitOnSpace_no_space : ∀ w : List Nat, 32 ∉ w → splitOnSpace w = [w]
  | [], _ => rfl
  | c :: rest, h => by
    have hc : ¬ c = 32 := fun hx => h (hx ▸ List.mem_cons_self c rest)
    have hr : splitOnSpace rest = [rest] :=
      splitOnSpace_no_space rest (fun hx => h (List.mem_cons_of_mem c hx))
    unfold splitOnSpace
    simp only [hc, if_false, hr]

theorem splitOnSpace_append :
    ∀ w t : List Nat, 32 ∉ w → splitOnSpace (w ++ 32 :: t) = w :: splitOnSpace t
  | [], t, _ => by simp [splitOnSpace]
  | c :: rest, t, h => by
    have hc : ¬ c = 32 := fun hx => h (hx ▸ List.mem_cons_self c rest)
    have hr : splitOnSpace (rest ++ 32 :: t) = rest :: splitOnSpace t :=
      splitOnSpace_append rest t (fun hx => h (List.mem_cons_of_mem c hx))
    show splitOnSpace (c :: (rest ++ 32 :: t)) = (c :: rest) :: splitOnSpace t
    simp only [splitOnSpace, hc, if_false, hr]

theorem splitOnSpace_joinSpace :
    ∀ ws : List (List Nat), ws ≠ [] → (∀ w ∈ ws, 32 ∉ w) →
      splitOnSpace (joinSpace ws) = ws
  | [], h, _ => absurd rfl h
  | [w], _, hw => by
    show splitOnSpace (joinSpace [w]) = [w]
    rw [show joinSpace [w] = w from rfl]
    exact splitOnSpace_no_space w (hw w (List.mem_cons_self w []))
  | w :: v :: rest, _, hw => by
    have h1 : splitOnSpace (joinSpace (v :: rest)) = v :: rest :=
      splitOnSpace_joinSpace (v :: rest) (by simp)
        (fun x hx => hw x (List.mem_cons_of_mem w hx))
    have h2 : joinSpace (w :: v :: rest) = w ++ 32 :: joinSpace (v :: rest) := rfl
    rw [h2, splitOnSpace_append w _ (hw w (List.mem_cons_self w _)), h1]

theorem map_joinSpace (f : Nat → Nat) (hf : f 32 = 32) :
    ∀ ws : List (List Nat), (joinSpace ws).map f = joinSpace (ws.map (List.map f))
  | [] => rfl
  | [w] => rfl
  | w :: v :: rest => by
    have h1 : (joinSpace (v :: rest)).map f = joinSpace ((v :: rest).map (List.map f)) :=
      map_joinSpace f hf (v :: rest)
    show (w ++ 32 :: joinSpace (v :: rest)).map f =
      w.map f ++ 32 :: joinSpace ((v :: rest).map (List.map f))
    rw [List.map_append, List.map_cons, hf, h1]

theorem listMapFixed {α : Type} (f : α → α) :
    ∀ l : List α, (∀ a ∈ l, f a = a) → l.map f = l
  | [], _ => rfl
  | a :: l, h => by
    rw [List.map_cons, h a (List.mem_cons_self a l),
      listMapFixed f l (fun x hx => h x (List.mem_cons_of_mem a hx))]

theorem asciiCapWord_map_lower (w : List Nat) (hfix : ∀ c ∈ w, jsToLowerCode c = c) :
    (asciiCapWord w).map jsToLowerCode = w := by
  cases w with
  | nil => rfl
  | cons c r =>
    show jsToLowerCode (jsToUpperCode c) :: r.map jsToLowerCode = c :: r
    rw [jsToLowerCode_jsToUpperCode c (hfix c (List.mem_cons_self c r)),
      listMapFixed jsToLowerCode r (fun x hx => hfix x (List.mem_cons_of_mem c hx))]

theorem asciiNormalize_idem (s : List Nat) :
    asciiNormalize (asciiNormalize s) = asciiNormalize s := by
  have hfixall : ∀ c ∈ s.map jsToLowerCode, jsToLowerCode c = c := by
    intro c hc
    rcases List.mem_map.1 hc with ⟨x, _, hx⟩
    rw [← hx]; exact jsToLowerCode_idem x
  have hne : splitOnSpace (s.map jsToLowerCode) ≠ [] := splitOnSpace_ne_nil _
  have hnos : ∀ w ∈ splitOnSpace (s.map jsToLowerCode), 32 ∉ w :=
    fun w hw => not_space_of_mem_splitOnSpace _ w hw
  have hfix : ∀ w ∈ splitOnSpace (s.map jsToLowerCode), ∀ c ∈ w, jsToLowerCode c = c :=
    fun w hw c hc => hfixall c (mem_of_mem_splitOnSpace _ w c hw hc)
  unfold asciiNormalize
  rw [map_joinSpace jsToLowerCode jsToLowerCode_space, List.map_map,
    show ((splitOnSpace (s.map jsToLowerCode)).map (List.map jsToLowerCode ∘ asciiCapWord)) =
      splitOnSpace (s.map jsToLowerCode) from
        listMapFixed _ _ (fun w hw => asciiCapWord_map_lower w (hfix w hw)),
    splitOnSpace_joinSpace _ hne hnos]

theorem jsLowerChar_ascii (c : Nat) (h : c < 128) : jsLowerChar c = [jsToLowerCode c] := by
  simp only [jsLowerChar, jsToLowerCode]
  split_ifs <;> first | rfl | omega

theorem jsUpperChar_ascii (c : Nat) (h : c < 128) : jsUpperChar c = [jsToUpperCode c] := by
  simp only [jsUpperChar, jsToUpperCode]
  split_ifs <;> first | rfl | omega

theorem allAscii_mem (s : List Nat) (h : allAscii s = true) : ∀ c ∈ s, c < 128 := by
  intro c hc
  exact of_decide_eq_true (List.all_eq_true.mp h c hc)

theorem allAscii_of (s : List Nat) (h : ∀ c ∈ s, c < 128) : allAscii s = true := by
  apply List.all_eq_true.mpr
  intro c hc
  exact decide_eq_true (h c hc)

theorem jsToLowerCode_ascii_lt (c : Nat) (h : c < 128) : jsToLowerCode c < 128 := by
  unfold jsToLowerCode
  split_ifs <;> omega

theorem jsToUpperCode_ascii_lt (c : Nat) (h : c < 128) : jsToUpperCode c < 128 := by
  unfold jsToUpperCode
  split_ifs <;> omega

theorem jsToLowerStr_ascii :
    ∀ s : List Nat, (∀ c ∈ s, c < 128) → jsToLowerStr s = s.map jsToLowerCode
  | [], _ => rfl
  | c :: s, h => by
    have h2 : jsToLowerStr s = s.map jsToLowerCode :=
      jsToLowerStr_ascii s (fun x hx => h x (List.mem_cons_of_mem c hx))
    show jsLowerChar c ++ (s.map jsLowerChar).flatten =
      jsToLowerCode c :: s.map jsToLowerCode
    rw [jsLowerChar_ascii c (h c (List.mem_cons_self c s)),
      show (s.map jsLowerChar).flatten = jsToLowerStr s from rfl, h2]
    rfl

theorem capWord_ascii (w : List Nat) (h : ∀ c ∈ w, c < 128) :
    capWord w = asciiCapWord w := by
  cases w with
  | nil => rfl
  | cons c r =>
    show jsUpperChar c ++ r = jsToUpperCode c :: r
    rw [jsUpperChar_ascii c (h c (List.mem_cons_self c r))]
    rfl

theorem listMapCongr {α β : Type} (f g : α → β) :
    ∀ l : List α, (∀ a ∈ l, f a = g a) → l.map f = l.map g
  | [], _ => rfl
  | a :: l, h => by
    rw [List.map_cons, List.map_cons, h a (List.mem_cons_self a l),
      listMapCongr f g l (fun x hx => h x (List.mem_cons_of_mem a hx))]

theorem normalizeCity_ascii (s : List Nat) (h : allAscii s = true) :
    normalizeCity s = asciiNormalize s := by
  have hm : ∀ c ∈ s, c < 128 := allAscii_mem s h
  have hlow : ∀ c ∈ s.map jsToLowerCode, c < 128 := by
    intro c hc
    rcases List.mem_map.1 hc with ⟨x, hx, hxe⟩
    rw [← hxe]
    exact jsToLowerCode_ascii_lt x (hm x hx)
  unfold normalizeCity asciiNormalize
  rw [jsToLowerStr_ascii s hm]
  congr 1
  exact listMapCongr _ _ _
    (fun w hw => capWord_ascii w
      (fun c hc => hlow c (mem_of_mem_splitOnSpace _ w c hw hc)))

theorem allAscii_joinSpace :
    ∀ ws : List (List Nat), (∀ w ∈ ws, ∀ c ∈ w, c < 128) →
      ∀ c ∈ joinSpace ws, c < 128
  | [], _, c, hc => absurd hc (by simp [joinSpace])
  | [w], h, c, hc => h w (List.mem_cons_self w []) c hc
  | w :: v :: rest, h, c, hc => by
    have hc2 : c ∈ w ++ 32 :: joinSpace (v :: rest) := hc
    rcases List.mem_append.1 hc2 with h1 | h1
    · exact h w (List.mem_cons_self w _) c h1
    · rcases List.mem_cons.1 h1 with h2 | h2
      · omega
      · exact allAscii_joinSpace (v :: rest)
          (fun x hx => h x (List.mem_cons_of_mem w hx)) c h2

theorem allAscii_asciiNormalize (s : List Nat) (h : allAscii s = true) :
    allAscii (asciiNormalize s) = true := by
  have hm : ∀ c ∈ s, c < 128 := allAscii_mem s h
  have hlow : ∀ c ∈ s.map jsToLowerCode, c < 128 := by
    intro c hc
    rcases List.mem_map.1 hc with ⟨x, hx, hxe⟩
    rw [← hxe]
    exact jsToLowerCode_ascii_lt x (hm x hx)
  apply allAscii_of
  unfold asciiNormalize
  apply allAscii_joinSpace
  intro w hw c hc
  rcases List.mem_map.1 hw with ⟨w0, hw0, hwe⟩
  subst hwe
  cases w0 with
  | nil => simp [asciiCapWord] at hc
  | cons a r =>
    rcases List.mem_cons.1 hc with h1 | h1
    · rw [h1]
      exact jsToUpperCode_ascii_lt a
        (hlow a (mem_of_mem_splitOnSpace _ _ a hw0 (List.mem_cons_self a r)))
    · exact hlow c (mem_of_mem_splitOnSpace _ _ c hw0 (List.mem_cons_of_mem a h1))


theorem findDonor_replace :
    ∀ (st : Store) (id : Nat) (d2 : StoredDonor), findDonor st id ≠ none →
      findDonor (st.map (fun p => if p.1 == id then (p.1, d2) else p)) id = some d2
  | [], id, d2, h => absurd rfl h
  | p :: st, id, d2, h => by
    by_cases hb : p.1 = id
    · simp [findDonor, List.find?, hb]
    · have hb2 : (p.1 == id) = false := beq_false_of_ne hb
      have hrest : findDonor st id ≠ none := by
        simpa [findDonor, List.find?, hb2] using h
      have ih := findDonor_replace st id d2 hrest
      simpa [findDonor, List.find?, hb2] using ih

theorem findDonor_filter_self :
    ∀ (st : Store) (id : Nat),
      findDonor (st.filter (fun p => !(p.1 == id))) id = none
  | [], _ => rfl
  | p :: st, id => by
    by_cases hb : p.1 = id
    · rw [show (p :: st).filter (fun p => !(p.1 == id)) = st.filter (fun p => !(p.1 == id)) by simp [List.filter, hb]]
      exact findDonor_filter_self st id
    · have hb2 : (p.1 == id) = false := beq_false_of_ne hb
      have ih := findDonor_filter_self st id
      simp only [findDonor, List.filter, hb2, Bool.not_false, List.find?, Option.map] at ih ⊢
      exact ih

theorem derivedInvariant_preSave_build (b : RequestBody) :
    derivedInvariant (preSave (buildDonorData b)) := by
  cases hb : b.lastDonation <;>
    simp [preSave, buildDonorData, derivedInvariant, hb]

theorem preSave_contactNumber (d : StoredDonor) :
    (preSave d).contactNumber = d.contactNumber := by
  cases hd : d.lastDonation <;> simp [preSave, hd]

theorem normalizeCityOpt_bloodGroup (b : RequestBody) :
    (normalizeCityOpt b).bloodGroup = b.bloodGroup := by
  cases hb : b.city
  · simp [normalizeCityOpt, hb]
  · simp only [normalizeCityOpt, hb]
    split <;> rfl

theorem postDonor_store_shape (today : JsDate) (freshId : Nat) (st : Store) (b : RequestBody) :
    (postDonor today freshId st b).2 = st ∨
      ∃ d, (postDonor today freshId st b).2 = (freshId, d) :: st ∧ derivedInvariant d := by
  simp only [postDonor]
  split_ifs with h1 h2 h3 h4 h5
  all_goals
    first
      | exact Or.inl rfl
      | exact Or.inr ⟨_, rfl, derivedInvariant_preSave_build _⟩

theorem putDonor_lastDonation_result (st : Store) (id : Nat) (b : RequestBody)
    (l : JsDate) (d : StoredDonor) (hb : b.lastDonation = some l)
    (hd : findDonor (putDonor st id b).2 id = some d) :
    d.lastDonation = some l ∧ d.nextAvailableDate = some (jsAddMonths l 3) := by
  cases h0 : findDonor st id with
  | none =>
    rw [show putDonor st id b = (notFoundResponse, st) by simp [putDonor, h0]] at hd
    rw [h0] at hd
    exact absurd hd (by simp)
  | some d0 =>
    have hput : (putDonor st id b).2 =
        st.map (fun p => if p.1 == id then (p.1, applyUpdate b d0) else p) := by
      simp [putDonor, h0]
    rw [hput, findDonor_replace st id (applyUpdate b d0) (by rw [h0]; simp)] at hd
    have hd2 : d = applyUpdate b d0 := by injection hd.symm
    subst hd2
    constructor
    · simp [applyUpdate, hb]
    · simp [applyUpdate, updateNextField, hb]

theorem postDonor_missing_eq (today : JsDate) (freshId : Nat) (st : Store)
    (b : RequestBody) (h : missingFieldsOf b ≠ []) :
    postDonor today freshId st b =
      (⟨400, "Missing required fields", missingFieldsOf b,
        (missingFieldsOf b).map (fun f => (f, f ++ " is required")), []⟩, st) := by
  have hl : (missingFieldsOf b).length > 0 := List.length_pos.mpr h
  simp only [postDonor]
  rw [if_pos hl]

theorem postDonor_future_eq (today : JsDate) (freshId : Nat) (st : Store)
    (b : RequestBody) (h1 : missingFieldsOf b = []) (h2 : futureDonation today b = true) :
    postDonor today freshId st b =
      (⟨400, "Invalid last donation date", [],
        [("lastDonation", "Last donation date cannot be in the future")], []⟩, st) := by
  simp [postDonor, h1, h2]

theorem postDonor_contactDup_eq (today : JsDate) (freshId : Nat) (st : Store)
    (b : RequestBody) (h1 : missingFieldsOf b = [])
    (h2 : futureDonation today b = false)
    (h3 : bloodGroupValid (normalizeCityOpt b) = true)
    (h4 : contactTaken st (normalizeCityOpt b) = true) :
    postDonor today freshId st b =
      (⟨400, "Contact number already registered", [],
        [("contactNumber", "This contact number is already registered")], []⟩, st) := by
  simp [postDonor, h1, h2, h3, h4]

theorem postDonor_contactUnique (today : JsDate) (freshId : Nat) (st : Store)
    (b : RequestBody) (h : contactUnique st) :
    contactUnique (postDonor today freshId st b).2 := by
  simp only [postDonor]
  split_ifs with h1 h2 h3 h4 h5
  all_goals try exact h
  show contactUnique ((freshId, preSave (buildDonorData (normalizeCityOpt b))) :: st)
  rw [contactUnique, List.pairwise_cons]
  refine ⟨?_, h⟩
  intro q hq
  have hc : (preSave (buildDonorData (normalizeCityOpt b))).contactNumber
      = (normalizeCityOpt b).contactNumber.getD "" := by
    rw [preSave_contactNumber]; rfl
  simp only [contactTaken, List.any_eq_true, not_exists] at h4
  simp only [hc]
  intro heq
  exact h4 q ⟨hq, by rw [← heq]; exact beq_self_eq_true _⟩

theorem bloodGroupValid_normalizeCityOpt (b : RequestBody) :
    bloodGroupValid (normalizeCityOpt b) = bloodGroupValid b := by
  unfold bloodGroupValid
  rw [normalizeCityOpt_bloodGroup]

theorem postDonor_badBloodGroup_eq (today : JsDate) (freshId : Nat) (st : Store)
    (b : RequestBody) (h1 : missingFieldsOf b = [])
    (h2 : futureDonation today b = false)
    (h3 : bloodGroupValid (normalizeCityOpt b) = false) :
    postDonor today freshId st b =
      (⟨400, "Invalid blood group", [],
        [("bloodGroup",
          "Blood group must be one of: A+, A-, B+, B-, AB+, AB-, O+, O-")], []⟩, st) := by
  simp [postDonor, h1, h2, h3]

theorem postDonor_created_eq (today : JsDate) (freshId : Nat) (st : Store)
    (b : RequestBody) (h1 : missingFieldsOf b = [])
    (h2 : futureDonation today b = false)
    (h3 : bloodGroupValid (normalizeCityOpt b) = true)
    (h4 : contactTaken st (normalizeCityOpt b) = false)
    (h5 : cnicTaken st (normalizeCityOpt b) = false) :
    postDonor today freshId st b =
      (⟨201, "", [], [], [preSave (buildDonorData (normalizeCityOpt b))]⟩,
        (freshId, preSave (buildDonorData (normalizeCityOpt b))) :: st) := by
  simp [postDonor, h1, h2, h3, h4, h5]

theorem postDonor_ignores_next (today : JsDate) (freshId : Nat) (st : Store)
    (b : RequestBody) (x : Option JsDate) :
    postDonor today freshId st { b with nextAvailableDate := x } =
      postDonor today freshId st b := by
  cases b with
  | mk n fn cn cnic addr city bg dep sem ld nad =>
    cases city with
    | none => rfl
    | some c =>
      by_cases hc : c.isEmpty
      · simp only [postDonor, normalizeCityOpt, hc, if_true]
        rfl
      · simp only [postDonor, normalizeCityOpt, hc, if_false]
        rfl

theorem putDonor_ignores_next_of_last (st : Store) (id : Nat) (b : RequestBody)
    (x : Option JsDate) (l : JsDate) (hb : b.lastDonation = some l) :
    putDonor st id { b with nextAvailableDate := x } = putDonor st id b := by
  cases h0 : findDonor st id with
  | none => simp [putDonor, h0]
  | some d0 => simp [putDonor, h0, applyUpdate, updateNextField, hb]

/-- Claim C1 as stated is false on the code: PUT /api/donors/:id spreads the
request body into updateData and recomputes nextAvailableDate only when the
body carries a truthy lastDonation, so an update naming only
nextAvailableDate stores a derived field with no lastDonation behind it. -/
theorem claim_C1_counterexample :
    (putDonor [(0, blankDonor)] 0 nextOnlyBody).1.status = 200 ∧
    findDonor (putDonor [(0, blankDonor)] 0 nextOnlyBody).2 0 =
      some { blankDonor with nextAvailableDate := some nextDate0 } ∧
    ¬ derivedInvariant { blankDonor with nextAvailableDate := some nextDate0 } := by
  refine ⟨rfl, by decide, by decide⟩

/-- Claim C1 amended: after any create the stored record satisfies the
derived-field invariant (nextAvailableDate is exactly lastDonation advanced
three calendar months with setMonth rollover when lastDonation is present,
and absent otherwise); after any update that supplies lastDonation the
updated record satisfies it likewise; an update that does not supply
lastDonation can leave or set nextAvailableDate independently. -/
theorem claim_C1_amended :
    (∀ today freshId st b,
      (postDonor today freshId st b).2 = st ∨
        ∃ d, (postDonor today freshId st b).2 = (freshId, d) :: st ∧ derivedInvariant d) ∧
    (∀ st id b l d, b.lastDonation = some l →
      findDonor (putDonor st id b).2 id = some d →
      derivedInvariant d ∧ d.lastDonation = some l ∧
        d.nextAvailableDate = some (jsAddMonths l 3)) := by
  refine ⟨postDonor_store_shape, ?_⟩
  intro st id b l d hb hd
  have h := putDonor_lastDonation_result st id b l d hb hd
  refine ⟨?_, h.1, h.2⟩
  unfold derivedInvariant
  rw [h.1, h.2]
  rfl

/-- Witness for claim C1 amended at a concrete update carrying lastDonation. -/
theorem claim_C1_witness :
    derivedInvariant (applyUpdate lastOnlyBody blankDonor) ∧
    (applyUpdate lastOnlyBody blankDonor).lastDonation = some ld0 ∧
    (applyUpdate lastOnlyBody blankDonor).nextAvailableDate = some (jsAddMonths ld0 3) :=
  claim_C1_amended.2 [(0, blankDonor)] 0 lastOnlyBody ld0
    (applyUpdate lastOnlyBody blankDonor) rfl (by decide)

/-- Claim C2 as stated is false on the code: contactNumber uniqueness does
not hold across all stored records, because PUT /api/donors/:id performs no
duplicate check (and the schema declares unique only on cnicNumber), so an
update can give two stored records the same contactNumber. -/
theorem claim_C2_counterexample :
    (putDonor storeTwo 1 contactDupBody).1.status = 200 ∧
    ((putDonor storeTwo 1 contactDupBody).2.map (fun p => p.2.contactNumber)) =
      ["0300-1111111", "0300-1111111"] ∧
    ¬ contactUnique (putDonor storeTwo 1 contactDupBody).2 := by
  refine ⟨rfl, by decide, by decide⟩

/-- Claim C2 amended: a create whose contactNumber is already stored is
rejected with 400 naming contactNumber (whenever validation steps 1, 2 and
4 pass so the duplicate lookup is reached), and creates preserve
contactNumber uniqueness; updates, however, can violate it. -/
theorem claim_C2_amended :
    (∀ today freshId st b, missingFieldsOf b = [] →
      futureDonation today b = false →
      bloodGroupValid (normalizeCityOpt b) = true →
      contactTaken st (normalizeCityOpt b) = true →
      postDonor today freshId st b =
        (⟨400, "Contact number already registered", [],
          [("contactNumber", "This contact number is already registered")], []⟩, st)) ∧
    (∀ today freshId st b, contactUnique st →
      contactUnique (postDonor today freshId st b).2) :=
  ⟨postDonor_contactDup_eq, postDonor_contactUnique⟩

/-- Witness for claim C2 amended: a fully valid body whose contactNumber is
already stored is rejected naming contactNumber, and uniqueness survives. -/
theorem claim_C2_witness :
    postDonor today0 5 [(0, blankDonor)] validBody =
      (⟨400, "Contact number already registered", [],
        [("contactNumber", "This contact number is already registered")], []⟩,
       [(0, blankDonor)]) ∧
    contactUnique (postDonor today0 5 [(0, blankDonor)] validBody).2 :=
  ⟨claim_C2_amended.1 today0 5 [(0, blankDonor)] validBody
      (by decide) (by decide) (by decide) (by decide),
   claim_C2_amended.2 today0 5 [(0, blankDonor)] validBody (by decide)⟩

/-- Claim C3 as stated is false on the code: the handler returns on the
first failing step, so a payload with a missing required field and a future
lastDonation is answered with the missing-field errors only and no
InvalidFormat entry on lastDonation. -/
theorem claim_C3_counterexample :
    futureDonation today0 missAndFutureBody = true ∧
    (postDonor today0 0 [] missAndFutureBody).1.validationErrors =
      [("name", "name is required")] ∧
    ((postDonor today0 0 [] missAndFutureBody).1.validationErrors).lookup
      "lastDonation" = none := by
  refine ⟨by decide, by decide, by decide⟩

/-- Claim C3 amended: error aggregation happens only inside the
required-field step, which reports one entry per missing field; validation
is fail-fast across steps, so the future-lastDonation InvalidFormat error is
returned alone, and only when no required field is missing (it is
independent of the later blood-group and duplicate checks, not of step 1). -/
theorem claim_C3_amended :
    (∀ today freshId st b, missingFieldsOf b ≠ [] →
      postDonor today freshId st b =
        (⟨400, "Missing required fields", missingFieldsOf b,
          (missingFieldsOf b).map (fun f => (f, f ++ " is required")), []⟩, st)) ∧
    (∀ today freshId st b, missingFieldsOf b = [] →
      futureDonation today b = true →
      postDonor today freshId st b =
        (⟨400, "Invalid last donation date", [],
          [("lastDonation", "Last donation date cannot be in the future")], []⟩, st)) :=
  ⟨postDonor_missing_eq, postDonor_future_eq⟩

/-- Witness for claim C3 amended at a missing-field body and at a
future-date body whose other fields are valid. -/
theorem claim_C3_witness :
    postDonor today0 0 [] missAndFutureBody =
      (⟨400, "Missing required fields", ["name"],
        [("name", "name is required")], []⟩, []) ∧
    postDonor today0 0 [] futureBody =
      (⟨400, "Invalid last donation date", [],
        [("lastDonation", "Last donation date cannot be in the future")], []⟩, []) :=
  ⟨claim_C3_amended.1 today0 0 [] missAndFutureBody (by decide),
   claim_C3_amended.2 today0 0 [] futureBody (by decide) (by decide)⟩

/-- Claim C4 as stated is false on the code: on PUT /api/donors/:id, two
requests that differ only in the client-supplied nextAvailableDate and carry
no lastDonation produce different stored records, because updateData spreads
the body and overwrites nextAvailableDate only when lastDonation is truthy. -/
theorem claim_C4_counterexample :
    nextOnlyBody = { emptyBody with nextAvailableDate := some nextDate0 } ∧
    (putDonor [(0, blankDonor)] 0 nextOnlyBody).2 ≠
      (putDonor [(0, blankDonor)] 0 emptyBody).2 := by
  refine ⟨rfl, by decide⟩

/-- Claim C4 amended: on create the client-supplied nextAvailableDate is
always ignored (two bodies differing only there give identical responses and
stores); on update this holds whenever the body supplies lastDonation, but a
lastDonation-free update stores the client value verbatim. -/
theorem claim_C4_amended :
    (∀ today freshId st b x,
      postDonor today freshId st { b with nextAvailableDate := x } =
        postDonor today freshId st b) ∧
    (∀ st id b x l, b.lastDonation = some l →
      putDonor st id { b with nextAvailableDate := x } = putDonor st id b) :=
  ⟨postDonor_ignores_next, putDonor_ignores_next_of_last⟩

/-- Witness for claim C4 amended at an update that carries lastDonation. -/
theorem claim_C4_witness :
    putDonor [(0, blankDonor)] 0 { lastOnlyBody with nextAvailableDate := some nextDate0 } =
      putDonor [(0, blankDonor)] 0 lastOnlyBody :=
  claim_C4_amended.2 [(0, blankDonor)] 0 lastOnlyBody (some nextDate0) ld0 rfl

/-- Claim C5: the PUT /api/donors/:id registration omits the
authenticateToken middleware, so every update request reaches the handler
whatever the token situation, while tokenless GET, POST and DELETE requests
are answered 401 with the store untouched, before the handler runs. -/
theorem claim_C5 :
    (∀ verify today freshId st token id b,
      dispatch verify today freshId st token (.update id b) = putDonor st id b) ∧
    (∀ verify today freshId st,
      dispatch verify today freshId st none .list = (authRequiredResponse, st)) ∧
    (∀ verify today freshId st id,
      dispatch verify today freshId st none (.getOne id) = (authRequiredResponse, st)) ∧
    (∀ verify today freshId st b,
      dispatch verify today freshId st none (.create b) = (authRequiredResponse, st)) ∧
    (∀ verify today freshId st id,
      dispatch verify today freshId st none (.remove id) = (authRequiredResponse, st)) ∧
    authRequiredResponse.status = 401 :=
  ⟨fun _ _ _ _ _ _ _ => rfl, fun _ _ _ _ => rfl, fun _ _ _ _ _ => rfl,
   fun _ _ _ _ _ => rfl, fun _ _ _ _ _ => rfl, rfl⟩

/-- Claim C6: for a body in which exactly N required fields are absent or
empty, the create response lists exactly those N fields and carries exactly
N validation errors, one per field, each reading field is required. -/
theorem claim_C6 :
    ∀ today freshId st b, missingFieldsOf b ≠ [] →
      missingFieldsOf b = requiredFields.filter (fieldFalsy b) ∧
      (postDonor today freshId st b).1.status = 400 ∧
      (postDonor today freshId st b).1.message = "Missing required fields" ∧
      (postDonor today freshId st b).1.missingFields = missingFieldsOf b ∧
      (postDonor today freshId st b).1.validationErrors =
        (missingFieldsOf b).map (fun f => (f, f ++ " is required")) ∧
      ((postDonor today freshId st b).1.validationErrors).length =
        (missingFieldsOf b).length ∧
      (∀ f ∈ missingFieldsOf b,
        (f, f ++ " is required") ∈ (postDonor today freshId st b).1.validationErrors) := by
  intro today freshId st b h
  have he := postDonor_missing_eq today freshId st b h
  rw [he]
  refine ⟨rfl, rfl, rfl, rfl, rfl, by simp, ?_⟩
  intro f hf
  exact List.mem_map_of_mem _ hf

/-- Witness for claim C6 at a body missing exactly two required fields. -/
theorem claim_C6_witness :
    (postDonor today0 3 [] missTwoBody).1.missingFields = ["name", "address"] ∧
    (postDonor today0 3 [] missTwoBody).1.validationErrors =
      [("name", "name is required"), ("address", "address is required")] :=
  ⟨((claim_C6 today0 3 [] missTwoBody (by decide)).2).2.2.1,
   ((claim_C6 today0 3 [] missTwoBody (by decide)).2).2.2.2.1⟩

/-- Claim C7: an update whose id identifies no stored record is answered
404 and leaves the store unchanged. -/
theorem claim_C7 :
    ∀ st id b, findDonor st id = none →
      putDonor st id b = (notFoundResponse, st) ∧
      (putDonor st id b).1.status = 404 := by
  intro st id b h
  have he : putDonor st id b = (notFoundResponse, st) := by simp [putDonor, h]
  exact ⟨he, by rw [he]; rfl⟩

/-- Witness for claim C7 at an empty store. -/
theorem claim_C7_witness :
    putDonor [] 99 emptyBody = (notFoundResponse, []) ∧
    (putDonor [] 99 emptyBody).1.status = 404 :=
  claim_C7 [] 99 emptyBody rfl

/-- Claim C8 as stated is false on the code under the real case mappings:
toUpperCase expands the sharp s U+00DF to the two units SS, so normalizing
the one-unit city string with that code point yields SS, while normalizing
SS yields Ss; normalization is therefore not idempotent on every string. -/
theorem claim_C8_counterexample :
    normalizeCity [223] = [83, 83] ∧
    normalizeCity (normalizeCity [223]) = [83, 115] ∧
    normalizeCity (normalizeCity [223]) ≠ normalizeCity [223] := by
  refine ⟨by decide, by decide, by decide⟩

/-- Claim C8 amended: the city normalization is idempotent on every
all-ASCII city string, where the case mappings are unit-to-unit, and maps
the two sample inputs of the spec as stated; on code points whose full
uppercase mapping is one-to-many, such as the sharp s, idempotence fails. -/
theorem claim_C8_amended :
    (∀ s : List Nat, allAscii s = true →
      normalizeCity (normalizeCity s) = normalizeCity s) ∧
    normalizeCity (codesOf "karachi city") = codesOf "Karachi City" ∧
    normalizeCity (codesOf "KARACHI") = codesOf "Karachi" := by
  refine ⟨?_, by decide, by decide⟩
  intro s h
  rw [normalizeCity_ascii s h,
    normalizeCity_ascii (asciiNormalize s) (allAscii_asciiNormalize s h),
    asciiNormalize_idem]

/-- Witness for claim C8 amended at an ASCII sample string. -/
theorem claim_C8_witness :
    normalizeCity (normalizeCity (codesOf "karachi city")) =
      normalizeCity (codesOf "karachi city") :=
  claim_C8_amended.1 (codesOf "karachi city") (by decide)

/-- Claim C9: with steps 1 and 2 passing, bloodGroup AB+ reaches creation
(201 when no duplicate is found), and every value outside the eight-symbol
validBloodGroups set, X+ among them, is rejected with the message
enumerating the full set. -/
theorem claim_C9 :
    (∀ today freshId st b, missingFieldsOf b = [] →
      futureDonation today b = false → b.bloodGroup = some "AB+" →
      contactTaken st (normalizeCityOpt b) = false →
      cnicTaken st (normalizeCityOpt b) = false →
      (postDonor today freshId st b).1.status = 201) ∧
    (∀ today freshId st b g, missingFieldsOf b = [] →
      futureDonation today b = false → b.bloodGroup = some g →
      validBloodGroups.contains g = false →
      postDonor today freshId st b =
        (⟨400, "Invalid blood group", [],
          [("bloodGroup",
            "Blood group must be one of: A+, A-, B+, B-, AB+, AB-, O+, O-")], []⟩, st)) := by
  constructor
  · intro today freshId st b h1 h2 h3 h4 h5
    have hv : bloodGroupValid (normalizeCityOpt b) = true := by
      rw [bloodGroupValid_normalizeCityOpt]
      unfold bloodGroupValid
      rw [h3]
      decide
    rw [postDonor_created_eq today freshId st b h1 h2 hv h4 h5]
  · intro today freshId st b g h1 h2 h3 h4
    have hv : bloodGroupValid (normalizeCityOpt b) = false := by
      rw [bloodGroupValid_normalizeCityOpt]
      unfold bloodGroupValid
      rw [h3]
      exact h4
    exact postDonor_badBloodGroup_eq today freshId st b h1 h2 hv

/-- Witness for claim C9 at a valid AB+ body and at the same body with X+. -/
theorem claim_C9_witness :
    (postDonor today0 7 [] validBody).1.status = 201 ∧
    postDonor today0 7 [] xBody =
      (⟨400, "Invalid blood group", [],
        [("bloodGroup",
          "Blood group must be one of: A+, A-, B+, B-, AB+, AB-, O+, O-")], []⟩, []) :=
  ⟨claim_C9.1 today0 7 [] validBody (by decide) (by decide) rfl (by decide) (by decide),
   claim_C9.2 today0 7 [] xBody "X+" (by decide) (by decide) rfl (by decide)⟩

/-- Claim C10: DELETE /api/donors/:id answers 204 with an empty body on any
store, known id or not, never 404; afterwards the id is gone, and deleting
again answers identically. -/
theorem claim_C10 :
    ∀ (st : Store) (id : Nat),
      deleteDonor st id = (⟨204, "", [], [], []⟩, st.filter (fun p => !(p.1 == id))) ∧
      (deleteDonor st id).1.status = 204 ∧
      (deleteDonor st id).1.status ≠ 404 ∧
      findDonor (deleteDonor st id).2 id = none ∧
      (deleteDonor (deleteDonor st id).2 id).1 = (deleteDonor st id).1 := by
  intro st id
  exact ⟨rfl, rfl, by simp [deleteDonor], findDonor_filter_self st id, rfl⟩
